import Mathlib

/-!
Verification development for the sapience-helpers repository.

This file gives a shallow embedding of the pure computational core of the
repository's two modules:

* the order-book builder (`fetchAndCalculateOrderBook`, `tickToPrice`,
  tick-window sampling via a batched multicall), and
* the `MarketListener` lifecycle (`constructor`, `start`, swap-event
  processing, `stop`, `getOrderBook`).

JavaScript `number` arithmetic is modelled exactly over `ℚ` (the source
formulas are rational); `bigint` arithmetic over `ℤ`, with `Int.tdiv`
for `bigint` division (truncation toward zero, as in JavaScript).
External reads (slot0, liquidity(), tickSpacing(), the ticks multicall,
the swap subscription) are inputs to the embedded functions.
-/

namespace SapienceHelpers

/-- Embedding of tickToPrice from the order-book module:
price of token0 in token1, computed as
1 / 1.0001^tick * 10^(token0Decimals - token1Decimals). -/
def tickToPrice (tick : ℤ) (token0Decimals token1Decimals : ℕ) : ℚ :=
  1 / (1.0001 : ℚ) ^ tick * (10 : ℚ) ^ ((token0Decimals : ℤ) - (token1Decimals : ℤ))

/-- The constant Q96 = 2^96 used to scale the accumulated liquidity. -/
def Q96 : ℤ := 2 ^ 96

/-- Embedding of the placeholder depth expression
Number(cumulativeL / Q96) / (100 * Math.pow(10, token0Decimals));
the bigint division by Q96 truncates toward zero. -/
def amountPlaceholder (cumulativeL : ℤ) (token0Decimals : ℕ) : ℚ :=
  ((Int.tdiv cumulativeL Q96 : ℤ) : ℚ) / (100 * (10 : ℚ) ^ token0Decimals)

/-- An order-book level: a price and a token0 amount (depth). -/
structure OrderBookLevel where
  price : ℚ
  amountToken0 : ℚ
deriving DecidableEq

/-- The record returned by fetchAndCalculateOrderBook. -/
structure OrderBookReturn where
  bids : List OrderBookLevel
  asks : List OrderBookLevel
  currentMidTick : ℤ
  currentMidPrice : ℚ
deriving DecidableEq

/-- Result of one entry of the batched ticks(...) multicall issued with
allowFailure: true: either a decoded tuple (we keep the liquidityGross,
liquidityNet and initialized fields that the source consumes) or a failure. -/
inductive TickReadResult where
  | success (liquidityGross liquidityNet : ℤ) (initialized : Bool)
  | failure
deriving DecidableEq

/-- Default of the ticksToQueryPerSide parameter (destructuring default 50). -/
def ticksToQueryPerSideDefault : ℕ := 50

/-- Resolution of the optional ticksToQueryPerSide parameter. -/
def resolvedTicksPerSide (ticksToQueryPerSide : Option ℕ) : ℕ :=
  ticksToQueryPerSide.getD ticksToQueryPerSideDefault

/-- The raw list of tick indices pushed by the two for-loops:
currentTick - i*spacing for i = 0..n, then currentTick + i*spacing
for i = 1..n. -/
def tickIndicesToQuery (currentTick tickSpacingNumber : ℤ) (n : ℕ) : List ℤ :=
  ((List.range (n + 1)).map fun (i : ℕ) => currentTick - (i : ℤ) * tickSpacingNumber) ++
    ((List.range n).map fun (i : ℕ) => currentTick + ((i : ℤ) + 1) * tickSpacingNumber)

/-- Embedding of [...new Set(tickIndicesToQuery)].sort((a, b) => a - b):
deduplicate, then sort ascending. -/
def uniqueSortedTickIndices (currentTick tickSpacingNumber : ℤ) (n : ℕ) : List ℤ :=
  List.insertionSort (fun a b => a ≤ b) (tickIndicesToQuery currentTick tickSpacingNumber n).dedup

/-- One step of the forEach loop that builds the fetchedTicksData map:
a successful read with initialized = true stores its liquidityNet under the
tick index; failed or uninitialized reads store nothing. -/
def buildFetchedTicksStep (m : ℤ → Option ℤ) (p : ℤ × TickReadResult) : ℤ → Option ℤ :=
  match p.2 with
  | TickReadResult.success _ net true => Function.update m p.1 (some net)
  | _ => m

/-- The fetchedTicksData map built from the multicall results, keyed by the
sampled tick indices (tick index ↦ liquidityNet of the initialized tick). -/
def buildFetchedTicks (ps : List (ℤ × TickReadResult)) : ℤ → Option ℤ :=
  ps.foldl buildFetchedTicksStep (fun _ => none)

/-- One iteration of the asks loop: compute the price at T, add
liquidityNet(T - spacing) to the running liquidity if that tick is in the
map, compute the placeholder amount from the updated running liquidity, and
push the level only if price > currentMidPrice. -/
def asksStep (mid : ℚ) (tickSpacingNumber : ℤ) (d0 d1 : ℕ) (m : ℤ → Option ℤ)
    (st : ℤ × List OrderBookLevel) (T : ℤ) : ℤ × List OrderBookLevel :=
  let price := tickToPrice T d0 d1
  let cumL :=
    match m (T - tickSpacingNumber) with
    | some net => st.1 + net
    | none => st.1
  let amt := amountPlaceholder cumL d0
  (cumL, if mid < price then st.2 ++ [⟨price, amt⟩] else st.2)

/-- The asks loop: T = currentTick + spacing, ..., currentTick + n*spacing. -/
def computeAsks (currentTick tickSpacingNumber : ℤ) (mid : ℚ) (d0 d1 : ℕ)
    (L0 : ℤ) (m : ℤ → Option ℤ) (n : ℕ) : List OrderBookLevel :=
  (((List.range n).map fun (i : ℕ) => currentTick + ((i : ℤ) + 1) * tickSpacingNumber).foldl
    (asksStep mid tickSpacingNumber d0 d1 m) (L0, [])).2

/-- One iteration of the bids loop: compute the price at T, compute the
placeholder amount from the running liquidity, push the level if
price < currentMidPrice or T = currentTick, then subtract liquidityNet(T)
from the running liquidity if that tick is in the map. -/
def bidsStep (mid : ℚ) (currentTick : ℤ) (d0 d1 : ℕ) (m : ℤ → Option ℤ)
    (st : ℤ × List OrderBookLevel) (T : ℤ) : ℤ × List OrderBookLevel :=
  let price := tickToPrice T d0 d1
  let amt := amountPlaceholder st.1 d0
  let acc := if price < mid ∨ T = currentTick then st.2 ++ [⟨price, amt⟩] else st.2
  let cumL :=
    match m T with
    | some net => st.1 - net
    | none => st.1
  (cumL, acc)

/-- The bids loop: T = currentTick, currentTick - spacing, ...,
currentTick - n*spacing. -/
def computeBids (currentTick : ℤ) (mid : ℚ) (d0 d1 : ℕ) (L0 : ℤ)
    (m : ℤ → Option ℤ) (n : ℕ) (tickSpacingNumber : ℤ) : List OrderBookLevel :=
  (((List.range (n + 1)).map fun (i : ℕ) => currentTick - (i : ℤ) * tickSpacingNumber).foldl
    (bidsStep mid currentTick d0 d1 m) (L0, [])).2

/-- The pure core of fetchAndCalculateOrderBook, after all external reads:
given the slot0 tick, the pool liquidity, the tick spacing, the token
decimals, the per-side window and the fetched ticks map, compute both sides
(asks sorted ascending by price, bids sorted descending by price) and the
mid price. -/
def fetchAndCalculateOrderBookCore (currentTick poolLiquidity tickSpacingNumber : ℤ)
    (d0 d1 : ℕ) (n : ℕ) (m : ℤ → Option ℤ) : OrderBookReturn :=
  let mid := tickToPrice currentTick d0 d1
  { bids := List.insertionSort (fun a b => b.price ≤ a.price)
      (computeBids currentTick mid d0 d1 poolLiquidity m n tickSpacingNumber)
    asks := List.insertionSort (fun a b => a.price ≤ b.price)
      (computeAsks currentTick tickSpacingNumber mid d0 d1 poolLiquidity m n)
    currentMidTick := currentTick
    currentMidPrice := mid }

/-- Embedding of fetchAndCalculateOrderBook: the external reads (slot0 tick,
pool liquidity, tick spacing, and the per-index results of the batched ticks
multicall) are parameters; the fetchedTicksData map is built by zipping the
unique sorted tick indices with the multicall results. -/
def fetchAndCalculateOrderBook (d0 d1 : ℕ) (ticksToQueryPerSide : Option ℕ)
    (currentTick poolLiquidity tickSpacingNumber : ℤ)
    (tickResults : List TickReadResult) : OrderBookReturn :=
  let n := resolvedTicksPerSide ticksToQueryPerSide
  let idxs := uniqueSortedTickIndices currentTick tickSpacingNumber n
  fetchAndCalculateOrderBookCore currentTick poolLiquidity tickSpacingNumber d0 d1 n
    (buildFetchedTicks (idxs.zip tickResults))

/-! ### Price monotonicity -/

/-- tickToPrice is strictly decreasing in the tick index. -/
theorem tickToPrice_lt_of_lt (d0 d1 : ℕ) {a b : ℤ} (h : a < b) :
    tickToPrice b d0 d1 < tickToPrice a d0 d1 := by
  unfold tickToPrice
  have hbase : (1 : ℚ) < 1.0001 := by norm_num
  have hpow : (1.0001 : ℚ) ^ (-b) < (1.0001 : ℚ) ^ (-a) :=
    zpow_lt_zpow_right₀ hbase (by omega)
  have h10 : (0 : ℚ) < (10 : ℚ) ^ ((d0 : ℤ) - (d1 : ℤ)) := zpow_pos (by norm_num) _
  have h1 : ∀ t : ℤ, 1 / (1.0001 : ℚ) ^ t = (1.0001 : ℚ) ^ (-t) := by
    intro t
    rw [one_div, ← zpow_neg]
  rw [h1, h1]
  exact mul_lt_mul_of_pos_right hpow h10

/-! ### Structure of the computed book: the asks side is always empty and the
bids side is always the single level at the current tick, because tickToPrice
is decreasing in the tick while the push guards assume it is increasing. -/

theorem asks_foldl_acc (mid : ℚ) (ts : ℤ) (d0 d1 : ℕ) (m : ℤ → Option ℤ) (c : ℤ)
    (hmid : mid = tickToPrice c d0 d1) :
    ∀ Ts : List ℤ, (∀ T ∈ Ts, c < T) → ∀ st : ℤ × List OrderBookLevel,
      (Ts.foldl (asksStep mid ts d0 d1 m) st).2 = st.2 := by
  intro Ts
  induction Ts with
  | nil => intro _ st; rfl
  | cons T Ts ih =>
    intro hT st
    have hTc : c < T := hT T (List.mem_cons_self _ _)
    have hlt : tickToPrice T d0 d1 < mid := hmid ▸ tickToPrice_lt_of_lt d0 d1 hTc
    have hguard : ¬ mid < tickToPrice T d0 d1 := lt_asymm hlt
    rw [List.foldl_cons, ih (fun T' hT' => hT T' (List.mem_cons_of_mem _ hT'))]
    simp only [asksStep]
    rw [if_neg hguard]

theorem computeAsks_eq_nil (c ts : ℤ) (d0 d1 : ℕ) (L0 : ℤ) (m : ℤ → Option ℤ) (n : ℕ)
    (hts : 0 < ts) :
    computeAsks c ts (tickToPrice c d0 d1) d0 d1 L0 m n = [] := by
  unfold computeAsks
  rw [asks_foldl_acc _ _ _ _ _ c rfl _ ?_ _]
  intro T hT
  simp only [List.mem_map, List.mem_range] at hT
  obtain ⟨i, _, rfl⟩ := hT
  have h1 : (0 : ℤ) < (i : ℤ) + 1 := by omega
  have hpos : (0 : ℤ) < ((i : ℤ) + 1) * ts := mul_pos h1 hts
  omega

theorem bids_foldl_acc (mid : ℚ) (c : ℤ) (d0 d1 : ℕ) (m : ℤ → Option ℤ)
    (hmid : mid = tickToPrice c d0 d1) :
    ∀ Ts : List ℤ, (∀ T ∈ Ts, T < c) → ∀ st : ℤ × List OrderBookLevel,
      (Ts.foldl (bidsStep mid c d0 d1 m) st).2 = st.2 := by
  intro Ts
  induction Ts with
  | nil => intro _ st; rfl
  | cons T Ts ih =>
    intro hT st
    have hTc : T < c := hT T (List.mem_cons_self _ _)
    have hgt : mid < tickToPrice T d0 d1 := hmid ▸ tickToPrice_lt_of_lt d0 d1 hTc
    have hguard : ¬ (tickToPrice T d0 d1 < mid ∨ T = c) := by
      push_neg
      exact ⟨le_of_lt hgt, by omega⟩
    rw [List.foldl_cons, ih (fun T' hT' => hT T' (List.mem_cons_of_mem _ hT'))]
    simp only [bidsStep]
    rw [if_neg hguard]

theorem computeBids_eq_singleton (c : ℤ) (d0 d1 : ℕ) (L0 : ℤ) (m : ℤ → Option ℤ)
    (n : ℕ) (ts : ℤ) (hts : 0 < ts) :
    computeBids c (tickToPrice c d0 d1) d0 d1 L0 m n ts
      = [⟨tickToPrice c d0 d1, amountPlaceholder L0 d0⟩] := by
  unfold computeBids
  rw [List.range_succ_eq_map]
  simp only [List.map_cons, List.foldl_cons, List.map_map]
  have hc : c - ((0 : ℕ) : ℤ) * ts = c := by push_cast; ring
  rw [hc]
  have hstep : bidsStep (tickToPrice c d0 d1) c d0 d1 m (L0, []) c
      = ((match m c with | some net => L0 - net | none => L0),
         [⟨tickToPrice c d0 d1, amountPlaceholder L0 d0⟩]) := by
    simp [bidsStep]
  rw [hstep]
  rw [bids_foldl_acc _ _ _ _ _ rfl _ ?_ _]
  intro T hT
  simp only [Function.comp, List.mem_map, List.mem_range] at hT
  obtain ⟨i, _, rfl⟩ := hT
  have h1 : (0 : ℤ) < (i : ℤ) + 1 := by omega
  have hpos : (0 : ℤ) < ((i : ℤ) + 1) * ts := mul_pos h1 hts
  push_cast
  omega

/-- The full shape of the core result for any positive tick spacing: asks are
empty and the bids are the single current-tick level. -/
theorem fetchAndCalculateOrderBookCore_eq (c L ts : ℤ) (d0 d1 n : ℕ)
    (m : ℤ → Option ℤ) (hts : 0 < ts) :
    fetchAndCalculateOrderBookCore c L ts d0 d1 n m =
      { bids := [⟨tickToPrice c d0 d1, amountPlaceholder L d0⟩]
        asks := []
        currentMidTick := c
        currentMidPrice := tickToPrice c d0 d1 } := by
  simp only [fetchAndCalculateOrderBookCore]
  rw [computeAsks_eq_nil c ts d0 d1 L m n hts, computeBids_eq_singleton c d0 d1 L m n ts hts]
  simp [List.insertionSort, List.orderedInsert]

/-! ### The sampled tick window is the arithmetic progression
centered at the current tick -/

/-- The ascending arithmetic progression of 2n+1 sampled ticks. -/
def tickProgression (c ts : ℤ) (n : ℕ) : List ℤ :=
  (List.range (2 * n + 1)).map fun (k : ℕ) => c + ((k : ℤ) - (n : ℤ)) * ts

theorem mem_tickIndicesToQuery_iff (c ts : ℤ) (n : ℕ) (a : ℤ) :
    a ∈ tickIndicesToQuery c ts n ↔
      ∃ k : ℤ, -(n : ℤ) ≤ k ∧ k ≤ (n : ℤ) ∧ a = c + k * ts := by
  unfold tickIndicesToQuery
  constructor
  · intro h
    rcases List.mem_append.mp h with h1 | h1
    · obtain ⟨i, hi, rfl⟩ := List.mem_map.mp h1
      have hin : i < n + 1 := List.mem_range.mp hi
      refine ⟨-(i : ℤ), by omega, by omega, by ring⟩
    · obtain ⟨i, hi, rfl⟩ := List.mem_map.mp h1
      have hin : i < n := List.mem_range.mp hi
      refine ⟨(i : ℤ) + 1, by omega, by omega, by ring⟩
  · rintro ⟨k, hk1, hk2, rfl⟩
    rcases le_or_lt k 0 with hk | hk
    · refine List.mem_append.mpr (Or.inl (List.mem_map.mpr ⟨(-k).toNat, ?_, ?_⟩))
      · exact List.mem_range.mpr (by omega)
      · have hcast : ((-k).toNat : ℤ) = -k := by omega
        rw [hcast]
        ring
    · refine List.mem_append.mpr (Or.inr (List.mem_map.mpr ⟨(k - 1).toNat, ?_, ?_⟩))
      · exact List.mem_range.mpr (by omega)
      · have hcast : (((k - 1).toNat : ℤ)) = k - 1 := by omega
        rw [hcast]
        ring

theorem mem_tickProgression_iff (c ts : ℤ) (n : ℕ) (a : ℤ) :
    a ∈ tickProgression c ts n ↔
      ∃ k : ℤ, -(n : ℤ) ≤ k ∧ k ≤ (n : ℤ) ∧ a = c + k * ts := by
  unfold tickProgression
  constructor
  · intro h
    obtain ⟨j, hj, rfl⟩ := List.mem_map.mp h
    have hjn : j < 2 * n + 1 := List.mem_range.mp hj
    exact ⟨(j : ℤ) - (n : ℤ), by omega, by omega, rfl⟩
  · rintro ⟨k, hk1, hk2, rfl⟩
    refine List.mem_map.mpr ⟨(k + (n : ℤ)).toNat, List.mem_range.mpr (by omega), ?_⟩
    have hcast : (((k + (n : ℤ)).toNat : ℤ)) - (n : ℤ) = k := by omega
    rw [hcast]

theorem tickProgression_sorted_lt (c ts : ℤ) (n : ℕ) (hts : 0 < ts) :
    List.Sorted (· < ·) (tickProgression c ts n) := by
  unfold tickProgression
  refine List.Pairwise.map _ ?_ (List.pairwise_lt_range (2 * n + 1))
  intro a b hab
  have hlt : ((a : ℤ) - (n : ℤ)) * ts < ((b : ℤ) - (n : ℤ)) * ts :=
    mul_lt_mul_of_pos_right (by omega) hts
  omega

theorem tickProgression_nodup (c ts : ℤ) (n : ℕ) (hts : 0 < ts) :
    (tickProgression c ts n).Nodup :=
  (tickProgression_sorted_lt c ts n hts).imp ne_of_lt

/-- The deduplicated, ascending-sorted query list is exactly the
arithmetic progression of the 2n+1 ticks around the current tick. -/
theorem uniqueSortedTickIndices_eq (c ts : ℤ) (n : ℕ) (hts : 0 < ts) :
    uniqueSortedTickIndices c ts n = tickProgression c ts n := by
  refine List.eq_of_perm_of_sorted (r := fun a b : ℤ => a ≤ b) ?_ ?_ ?_
  · refine (List.perm_insertionSort _ _).trans ?_
    refine (List.perm_ext_iff_of_nodup (List.nodup_dedup _)
      (tickProgression_nodup c ts n hts)).mpr ?_
    intro a
    rw [List.mem_dedup, mem_tickIndicesToQuery_iff, mem_tickProgression_iff]
  · exact List.sorted_insertionSort _ _
  · exact ((tickProgression_sorted_lt c ts n hts).imp fun h => le_of_lt h)

theorem uniqueSortedTickIndices_nodup (c ts : ℤ) (n : ℕ) (hts : 0 < ts) :
    (uniqueSortedTickIndices c ts n).Nodup := by
  rw [uniqueSortedTickIndices_eq c ts n hts]
  exact tickProgression_nodup c ts n hts

theorem uniqueSortedTickIndices_length (c ts : ℤ) (n : ℕ) (hts : 0 < ts) :
    (uniqueSortedTickIndices c ts n).length = 2 * n + 1 := by
  rw [uniqueSortedTickIndices_eq c ts n hts]
  simp [tickProgression]

/-! ### Degradation of failed tick reads -/

theorem zip_set_right {α β : Type} : ∀ (l₁ : List α) (l₂ : List β) (j : ℕ) (b : β)
    (h₁ : j < l₁.length), j < l₂.length →
    l₁.zip (l₂.set j b) = (l₁.zip l₂).set j (l₁[j], b) := by
  intro l₁
  induction l₁ with
  | nil => intro l₂ j b h₁ h₂; simp at h₁
  | cons a l₁ ih =>
    intro l₂ j b h₁ h₂
    cases l₂ with
    | nil => simp at h₂
    | cons c l₂ =>
      cases j with
      | zero => simp [List.zip_cons_cons]
      | succ j =>
        simp only [List.zip_cons_cons, List.set_cons_succ, List.getElem_cons_succ]
        rw [ih l₂ j b (by simpa using h₁) (by simpa using h₂)]

theorem buildFetchedTicksStep_getD_congr (g₁ g₂ : ℤ → Option ℤ)
    (h : ∀ t, (g₁ t).getD 0 = (g₂ t).getD 0) (p : ℤ × TickReadResult) (t : ℤ) :
    (buildFetchedTicksStep g₁ p t).getD 0 = (buildFetchedTicksStep g₂ p t).getD 0 := by
  rcases p with ⟨tk, r⟩
  cases r with
  | success lg net init =>
    cases init with
    | true =>
      simp only [buildFetchedTicksStep]
      by_cases ht : t = tk
      · subst ht
        rw [Function.update_same, Function.update_same]
      · rw [Function.update_noteq ht, Function.update_noteq ht]
        exact h t
    | false => exact h t
  | failure => exact h t

theorem buildFold_getD_congr :
    ∀ (ps : List (ℤ × TickReadResult)) (g₁ g₂ : ℤ → Option ℤ),
      (∀ t, (g₁ t).getD 0 = (g₂ t).getD 0) →
      ∀ t, (ps.foldl buildFetchedTicksStep g₁ t).getD 0
          = (ps.foldl buildFetchedTicksStep g₂ t).getD 0 := by
  intro ps
  induction ps with
  | nil => intro g₁ g₂ h t; exact h t
  | cons p ps ih =>
    intro g₁ g₂ h t
    exact ih _ _ (fun u => buildFetchedTicksStep_getD_congr g₁ g₂ h p u) t

theorem buildFold_set_degrades :
    ∀ (ps : List (ℤ × TickReadResult)) (j : ℕ) (g : ℤ → Option ℤ) (hj : j < ps.length),
      (ps.map Prod.fst).Nodup →
      (g (ps[j].1)).getD 0 = 0 →
      ps[j].2 = TickReadResult.failure →
      ∀ t, ((ps.set j (ps[j].1, TickReadResult.success 0 0 true)).foldl
              buildFetchedTicksStep g t).getD 0
          = (ps.foldl buildFetchedTicksStep g t).getD 0 := by
  intro ps
  induction ps with
  | nil => intro j g hj; simp at hj
  | cons p ps ih =>
    intro j g hj hnd hg hfail t
    cases j with
    | zero =>
      rcases p with ⟨tk, r⟩
      simp only [List.getElem_cons_zero] at hg hfail ⊢
      subst hfail
      simp only [List.set_cons_zero, List.foldl_cons]
      refine buildFold_getD_congr ps _ _ ?_ t
      intro u
      show (Function.update g tk (some 0) u).getD 0 = (g u).getD 0
      by_cases hu : u = tk
      · subst hu
        rw [Function.update_same]
        exact hg.symm
      · rw [Function.update_noteq hu]
    | succ j =>
      have hj' : j < ps.length := by simpa using hj
      simp only [List.getElem_cons_succ] at hg hfail ⊢
      simp only [List.set_cons_succ, List.foldl_cons]
      have hnd' : ((p :: ps).map Prod.fst).Nodup := hnd
      rw [List.map_cons, List.nodup_cons] at hnd'
      refine ih j (buildFetchedTicksStep g p) hj' hnd'.2 ?_ hfail t
      have hne : p.1 ≠ ps[j].1 := by
        intro he
        exact hnd'.1 (he ▸ List.mem_map.mpr ⟨ps[j], List.getElem_mem hj', rfl⟩)
      rcases p with ⟨tk, r⟩
      cases r with
      | success lg net init =>
        cases init with
        | true =>
          show (Function.update g tk (some net) (ps[j].1)).getD 0 = 0
          rw [Function.update_noteq (Ne.symm hne)]
          exact hg
        | false => exact hg
      | failure => exact hg

/-! ### MarketListener embedding

The listener's mutable fields (src/index.ts) are collected in a state record,
together with counters for the externally observable effects: how often
resolvePoolAddress, fetchTokenDetails and watchContractEvent were invoked,
how many error notifications were emitted, and how often the order-book
builder was invoked (src/index.ts contains no call to
fetchAndCalculateOrderBook, so no transition increments that counter).
Each public method becomes a state transition; the two awaits inside
start() split it into an invocation step (guard check plus the start of
pool resolution) and a completion step (success or failure), so that
overlapping calls to start() can be expressed. -/

/-- The Order interface of the listener module. -/
structure Order where
  price : ℚ
  size : ℤ
deriving DecidableEq

/-- Decoded Swap event arguments delivered by the subscription. -/
structure SwapEventArgs where
  sender : String
  recipient : String
  amount0 : ℤ
  amount1 : ℤ
  sqrtPriceX96 : ℤ
  liquidity : ℤ
  tick : ℤ
deriving DecidableEq

/-- The SwapUpdateEvent record emitted to consumers on each swap. -/
structure SwapUpdateEvent where
  marketPrice : Option ℚ
  orderBook : List Order
  rawSwapArgs : SwapEventArgs
  poolAddress : Option String
  chainId : ℕ
  marketId : String
  timestamp : ℕ
deriving DecidableEq

/-- Configuration identifiers carried into every notification. -/
structure ListenerConfig where
  chainId : ℕ
  marketId : String
deriving DecidableEq

/-- The listener state: the mutable fields of the MarketListener class plus
effect counters for the external calls it makes. -/
structure MState where
  unwatch : Bool
  pendingStarts : ℕ
  resolutions : ℕ
  metadataLoads : ℕ
  subscriptions : ℕ
  poolAddress : Option String
  marketPrice : Option ℚ
  orderBook : List Order
  fetchOrderBookCalls : ℕ
  errorEmits : ℕ
deriving DecidableEq

/-- State of a freshly constructed listener (field initializers of
MarketListener: no subscription handle, no price, empty order book). -/
def initState : MState :=
  { unwatch := false, pendingStarts := 0, resolutions := 0, metadataLoads := 0
    subscriptions := 0, poolAddress := none, marketPrice := none, orderBook := []
    fetchOrderBookCalls := 0, errorEmits := 0 }

/-- Result of running the constructor: an unsupported chainId throws
synchronously; the constructor never emits an error notification. -/
structure ConstructorResult where
  threw : Bool
  errorEmits : ℕ
deriving DecidableEq

/-- Embedding of the MarketListener constructor's chain check. -/
def constructorRun (chainSupported : Bool) : ConstructorResult :=
  if chainSupported then { threw := false, errorEmits := 0 }
  else { threw := true, errorEmits := 0 }

/-- The synchronous prefix of start(): if the subscription handle is set the
call warns and returns (no state change); otherwise the call proceeds into
the try block and invokes resolvePoolAddress. -/
def startInvoke (s : MState) : MState :=
  if s.unwatch then s
  else { s with pendingStarts := s.pendingStarts + 1, resolutions := s.resolutions + 1 }

/-- Completion of an in-flight start() whose resolution and metadata load
both succeeded: fetchTokenDetails ran, watchContractEvent was called and its
handle stored (overwriting any previous handle). -/
def startFinishOk (s : MState) (pool : String) : MState :=
  if s.pendingStarts = 0 then s
  else
    { s with
        pendingStarts := s.pendingStarts - 1
        metadataLoads := s.metadataLoads + 1
        subscriptions := s.subscriptions + 1
        unwatch := true
        poolAddress := some pool }

/-- Completion of an in-flight start() whose pool resolution failed: the
catch block emits one error notification and rethrows. -/
def startFinishFailResolution (s : MState) : MState :=
  if s.pendingStarts = 0 then s
  else { s with pendingStarts := s.pendingStarts - 1, errorEmits := s.errorEmits + 1 }

/-- Completion of an in-flight start() whose metadata load failed after the
pool address was resolved and stored: fetchTokenDetails ran and threw; the
catch block emits one error notification and rethrows. -/
def startFinishFailMetadata (s : MState) (pool : String) : MState :=
  if s.pendingStarts = 0 then s
  else
    { s with
        pendingStarts := s.pendingStarts - 1
        metadataLoads := s.metadataLoads + 1
        errorEmits := s.errorEmits + 1
        poolAddress := some pool }

/-- A sequential start() call whose pool resolution fails, run to
completion; the boolean records whether the returned promise rejects. -/
def startWithResolutionFailure (s : MState) : MState × Bool :=
  if s.unwatch then (s, false)
  else (startFinishFailResolution (startInvoke s), true)

/-- A sequential start() call whose metadata load fails, run to completion;
the boolean records whether the returned promise rejects. -/
def startWithMetadataFailure (s : MState) (pool : String) : MState × Bool :=
  if s.unwatch then (s, false)
  else (startFinishFailMetadata (startInvoke s) pool, true)

/-- The market price computed by the onLogs handler:
(Number(sqrtPriceX96) / 2^96)^2 * 10^(token0Decimals - token1Decimals). -/
def marketPriceOf (sqrtPriceX96 : ℤ) (d0 d1 : ℕ) : ℚ :=
  ((sqrtPriceX96 : ℚ) / 2 ^ 96) ^ 2 * (10 : ℚ) ^ ((d0 : ℤ) - (d1 : ℤ))

/-- Processing of one decoded swap log while the subscription is active
(token decimals available): update the stored price, reset the stored order
book to the empty list, and emit a SwapUpdateEvent carrying the new price,
a copy of the (empty) order book, the raw args, the pool address, the chain
and market identifiers, and the processing timestamp. -/
def processSwap (cfg : ListenerConfig) (s : MState) (args : SwapEventArgs)
    (d0 d1 : ℕ) (now : ℕ) : MState × SwapUpdateEvent :=
  let p := marketPriceOf args.sqrtPriceX96 d0 d1
  ({ s with marketPrice := some p, orderBook := [] },
   { marketPrice := some p
     orderBook := []
     rawSwapArgs := args
     poolAddress := s.poolAddress
     chainId := cfg.chainId
     marketId := cfg.marketId
     timestamp := now })

/-- Embedding of stop(): cancel the subscription if one is active, otherwise
warn and do nothing. -/
def stop (s : MState) : MState :=
  if s.unwatch then { s with unwatch := false } else s

/-- Embedding of getOrderBook() (the source returns a copy of the list). -/
def getOrderBook (s : MState) : List Order := s.orderBook

/-- Embedding of getMarketPrice(). -/
def getMarketPrice (s : MState) : Option ℚ := s.marketPrice

/-- The states a MarketListener can reach: construction, the pieces of
start() (including overlapping calls), swap processing while the
subscription is active, and stop(). -/
inductive Reachable : MState → Prop where
  | init : Reachable initState
  | invoke {s : MState} : Reachable s → Reachable (startInvoke s)
  | finishOk {s : MState} (pool : String) : Reachable s → Reachable (startFinishOk s pool)
  | finishFailResolution {s : MState} : Reachable s → Reachable (startFinishFailResolution s)
  | finishFailMetadata {s : MState} (pool : String) :
      Reachable s → Reachable (startFinishFailMetadata s pool)
  | swap {s : MState} (cfg : ListenerConfig) (args : SwapEventArgs) (d0 d1 now : ℕ) :
      Reachable s → s.unwatch = true → Reachable (processSwap cfg s args d0 d1 now).1
  | stopped {s : MState} : Reachable s → Reachable (stop s)

/-- In every reachable listener state the stored order book is empty and the
order-book builder has never been invoked. -/
theorem reachable_invariant {s : MState} (h : Reachable s) :
    s.orderBook = [] ∧ s.fetchOrderBookCalls = 0 := by
  induction h with
  | init => exact ⟨rfl, rfl⟩
  | invoke _ ih =>
    unfold startInvoke
    split
    · exact ih
    · exact ih
  | finishOk pool _ ih =>
    unfold startFinishOk
    split
    · exact ih
    · exact ih
  | finishFailResolution _ ih =>
    unfold startFinishFailResolution
    split
    · exact ih
    · exact ih
  | finishFailMetadata pool _ ih =>
    unfold startFinishFailMetadata
    split
    · exact ih
    · exact ih
  | swap cfg args d0 d1 now _ _ ih => exact ⟨rfl, ih.2⟩
  | stopped _ ih =>
    unfold stop
    split
    · exact ih
    · exact ih

/-! ### Evaluation of the specification scenario -/

theorem tickToPrice_zero_eq_one : tickToPrice 0 18 18 = 1 := by
  simp [tickToPrice]

theorem amountPlaceholder_million_eq_zero : amountPlaceholder 1000000 18 = 0 := by
  have hdiv : Int.tdiv 1000000 Q96 = 0 := by
    have h1 : (1000000 : ℤ) < Q96 := by unfold Q96; norm_num
    rw [Int.tdiv_eq_ediv (by norm_num) (by unfold Q96; positivity)]
    exact Int.ediv_eq_zero_of_lt (by norm_num) h1
  simp [amountPlaceholder, hdiv]

/-- Full evaluation of the order-book builder on the spec scenario:
currentTick 0, activeLiquidity 1000000, spacing 60, decimals 18/18,
window 2, no initialized ticks. -/
theorem scenario_eval :
    fetchAndCalculateOrderBook 18 18 (some 2) 0 1000000 60
        (List.replicate 5 (TickReadResult.success 0 0 false))
      = { bids := [⟨1, 0⟩], asks := [], currentMidTick := 0, currentMidPrice := 1 } := by
  simp only [fetchAndCalculateOrderBook]
  rw [fetchAndCalculateOrderBookCore_eq _ _ _ _ _ _ _ (by norm_num)]
  rw [tickToPrice_zero_eq_one, amountPlaceholder_million_eq_zero]

/-! ### Claim theorems -/

/-- C1: on the scenario pool state (currentTick = 0, tickSpacing = 60,
activeLiquidity = 1000000, no initialized ticks, decimals 18/18,
windowSize = 2) the spec claims midPrice about 1.0, asks at ticks 60 and 120
and bids at ticks 0, -60 and -120 with positive depth.  The code instead
returns midPrice = 1 with an empty asks list and a single bid at price 1
with depth 0: because tickToPrice is decreasing in the tick, the ask guard
price > midPrice never holds and the bid guard only admits the current tick,
and 1000000 / 2^96 truncates to 0. -/
theorem claim_C1_scenario_code_result :
    fetchAndCalculateOrderBook 18 18 (some 2) 0 1000000 60
        (List.replicate 5 (TickReadResult.success 0 0 false))
      = { bids := [⟨1, 0⟩], asks := [], currentMidTick := 0, currentMidPrice := 1 } :=
  scenario_eval

/-- C2 counterexample: in the scenario book the single bid sits exactly at
midPrice, so the claimed strict inequality bid price < midPrice fails. -/
theorem claim_C2_counterexample :
    ¬ (∀ lvl ∈ (fetchAndCalculateOrderBook 18 18 (some 2) 0 1000000 60
          (List.replicate 5 (TickReadResult.success 0 0 false))).bids,
        lvl.price < (fetchAndCalculateOrderBook 18 18 (some 2) 0 1000000 60
          (List.replicate 5 (TickReadResult.success 0 0 false))).currentMidPrice) := by
  intro h
  have h1 := h ⟨1, 0⟩ (by rw [scenario_eval]; exact List.mem_singleton_self _)
  rw [scenario_eval] at h1
  exact lt_irrefl (1 : ℚ) h1

/-- C2 amended: for every pool state with positive tick spacing and every
sampled tick-liquidity map, every ask price is strictly above midPrice
(vacuously, the asks list is empty), every bid price is at most midPrice
(the single bid sits exactly at midPrice), bids are sorted strictly
descending and asks strictly ascending by price. -/
theorem claim_C2_amended (c L ts : ℤ) (d0 d1 n : ℕ) (m : ℤ → Option ℤ)
    (hts : 0 < ts) :
    (∀ lvl ∈ (fetchAndCalculateOrderBookCore c L ts d0 d1 n m).asks,
        (fetchAndCalculateOrderBookCore c L ts d0 d1 n m).currentMidPrice < lvl.price)
    ∧ (∀ lvl ∈ (fetchAndCalculateOrderBookCore c L ts d0 d1 n m).bids,
        lvl.price ≤ (fetchAndCalculateOrderBookCore c L ts d0 d1 n m).currentMidPrice)
    ∧ List.Sorted (fun a b : OrderBookLevel => b.price < a.price)
        (fetchAndCalculateOrderBookCore c L ts d0 d1 n m).bids
    ∧ List.Sorted (fun a b : OrderBookLevel => a.price < b.price)
        (fetchAndCalculateOrderBookCore c L ts d0 d1 n m).asks := by
  rw [fetchAndCalculateOrderBookCore_eq c L ts d0 d1 n m hts]
  refine ⟨?_, ?_, ?_, ?_⟩
  · intro lvl h
    simp at h
  · intro lvl h
    rw [List.mem_singleton] at h
    subst h
    exact le_refl _
  · exact List.sorted_singleton _
  · exact List.sorted_nil

theorem claim_C2_amended_witness :
    List.Sorted (fun a b : OrderBookLevel => b.price < a.price)
      (fetchAndCalculateOrderBookCore 0 0 1 0 0 0 (fun _ => none)).bids :=
  (claim_C2_amended 0 0 1 0 0 0 (fun _ => none) (by norm_num)).2.2.1

/-- C3: in every reachable listener state the stored order book is empty,
getOrderBook returns the empty list, the order-book builder was never
invoked, and every emitted swap notification carries an empty orderBook. -/
theorem claim_C3_orderBook_always_empty {s : MState} (h : Reachable s) :
    s.orderBook = [] ∧ s.fetchOrderBookCalls = 0 ∧ getOrderBook s = []
    ∧ ∀ (cfg : ListenerConfig) (args : SwapEventArgs) (d0 d1 now : ℕ),
        (processSwap cfg s args d0 d1 now).2.orderBook = [] := by
  obtain ⟨h1, h2⟩ := reachable_invariant h
  exact ⟨h1, h2, h1, fun _ _ _ _ _ => rfl⟩

theorem claim_C3_witness :
    getOrderBook ((processSwap ⟨8453, "1"⟩ (startFinishOk (startInvoke initState) "pool")
        ⟨"s", "r", 0, 0, 79228162514264337593543950336, 0, 0⟩ 18 18 1700000000000).1) = []
    ∧ initState.orderBook = [] ∧ initState.fetchOrderBookCalls = 0 :=
  ⟨(claim_C3_orderBook_always_empty (Reachable.swap ⟨8453, "1"⟩
      ⟨"s", "r", 0, 0, 79228162514264337593543950336, 0, 0⟩ 18 18 1700000000000
      (Reachable.finishOk "pool" (Reachable.invoke Reachable.init)) (by decide))).2.2.1,
   (claim_C3_orderBook_always_empty Reachable.init).1,
   (claim_C3_orderBook_always_empty Reachable.init).2.1⟩

/-- C4: for every pool state with positive tick spacing and nonnegative pool
liquidity (it is a uint128 on chain) and every sampled tick-liquidity map,
whatever the signs of the liquidityNet values, every depth in the produced
bids and asks is nonnegative. -/
theorem claim_C4_depths_nonneg (c L ts : ℤ) (d0 d1 n : ℕ) (m : ℤ → Option ℤ)
    (hts : 0 < ts) (hL : 0 ≤ L) :
    (∀ lvl ∈ (fetchAndCalculateOrderBookCore c L ts d0 d1 n m).bids,
        0 ≤ lvl.amountToken0)
    ∧ ∀ lvl ∈ (fetchAndCalculateOrderBookCore c L ts d0 d1 n m).asks,
        0 ≤ lvl.amountToken0 := by
  rw [fetchAndCalculateOrderBookCore_eq c L ts d0 d1 n m hts]
  constructor
  · intro lvl h
    rw [List.mem_singleton] at h
    subst h
    show (0 : ℚ) ≤ amountPlaceholder L d0
    unfold amountPlaceholder
    apply div_nonneg
    · exact_mod_cast Int.tdiv_nonneg hL (by unfold Q96; positivity)
    · positivity
  · intro lvl h
    simp at h

theorem claim_C4_witness :
    0 ≤ (OrderBookLevel.mk (tickToPrice 0 0 0) (amountPlaceholder 5 0)).amountToken0 :=
  (claim_C4_depths_nonneg 0 5 1 0 0 0 (fun _ => none) (by norm_num) (by norm_num)).1
    ⟨tickToPrice 0 0 0, amountPlaceholder 5 0⟩
    (by rw [fetchAndCalculateOrderBookCore_eq 0 5 1 0 0 0 (fun _ => none) (by norm_num)]
        exact List.mem_singleton_self _)

/-- C5 counterexample: a second start() issued while the first is still in
its resolution phase (subscription handle not yet set) is not a no-op: it
changes the state, performing a second pool resolution. -/
theorem claim_C5_counterexample :
    startInvoke (startInvoke initState) ≠ startInvoke initState
    ∧ (startInvoke initState).unwatch = false
    ∧ (startInvoke initState).pendingStarts = 1
    ∧ (startInvoke (startInvoke initState)).resolutions = 2 := by
  refine ⟨by decide, by decide, by decide, by decide⟩

/-- C5 amended: a call to start() while the subscription handle is set
(Watching) is a no-op returning immediately, and start() called twice in
sequential succession is idempotent: after a completed successful start the
second call changes nothing, and exactly one resolution, one metadata load
and one subscription happened.  (A start() issued while a previous one is
still resolving or loading metadata is not guarded, see the
counterexample.) -/
theorem claim_C5_amended (s : MState) (pool : String) (hw : s.unwatch = false) :
    (startFinishOk (startInvoke s) pool).unwatch = true
    ∧ startInvoke (startFinishOk (startInvoke s) pool) = startFinishOk (startInvoke s) pool
    ∧ (startFinishOk (startInvoke s) pool).resolutions = s.resolutions + 1
    ∧ (startFinishOk (startInvoke s) pool).metadataLoads = s.metadataLoads + 1
    ∧ (startFinishOk (startInvoke s) pool).subscriptions = s.subscriptions + 1
    ∧ ∀ s₂ : MState, s₂.unwatch = true → startInvoke s₂ = s₂ := by
  have hgen : ∀ s₂ : MState, s₂.unwatch = true → startInvoke s₂ = s₂ := by
    intro s₂ h2
    unfold startInvoke
    rw [if_pos h2]
  have h1 : (startFinishOk (startInvoke s) pool).unwatch = true := by
    simp [startInvoke, startFinishOk, hw]
  refine ⟨h1, hgen _ h1, ?_, ?_, ?_, hgen⟩
  · simp [startInvoke, startFinishOk, hw]
  · simp [startInvoke, startFinishOk, hw]
  · simp [startInvoke, startFinishOk, hw]

theorem claim_C5_amended_witness :
    startInvoke (startFinishOk (startInvoke initState) "pool")
      = startFinishOk (startInvoke initState) "pool" :=
  (claim_C5_amended initState "pool" rfl).2.1

/-- C6 counterexample: a configuration error at construction (unsupported
chainId) is thrown but no error notification is emitted, contradicting the
claim that every fatal error is also emitted exactly once. -/
theorem claim_C6_counterexample :
    (constructorRun false).threw = true
    ∧ (constructorRun false).errorEmits = 0
    ∧ (constructorRun false).errorEmits ≠ 1 := by
  refine ⟨rfl, rfl, by decide⟩

/-- C6 amended: a resolution failure and a metadata-load failure each make
start() reject and emit exactly one error notification, leaving no active
subscription; a configuration error at construction is thrown only and emits
no error notification. -/
theorem claim_C6_amended (s : MState) (pool : String) (hw : s.unwatch = false) :
    (startWithResolutionFailure s).2 = true
    ∧ (startWithResolutionFailure s).1.errorEmits = s.errorEmits + 1
    ∧ (startWithResolutionFailure s).1.unwatch = false
    ∧ (startWithResolutionFailure s).1.subscriptions = s.subscriptions
    ∧ (startWithMetadataFailure s pool).2 = true
    ∧ (startWithMetadataFailure s pool).1.errorEmits = s.errorEmits + 1
    ∧ (startWithMetadataFailure s pool).1.unwatch = false
    ∧ (startWithMetadataFailure s pool).1.subscriptions = s.subscriptions
    ∧ (constructorRun false).threw = true
    ∧ (constructorRun false).errorEmits = 0 := by
  refine ⟨?_, ?_, ?_, ?_, ?_, ?_, ?_, ?_, rfl, rfl⟩
  all_goals
    simp [startWithResolutionFailure, startWithMetadataFailure, startInvoke,
      startFinishFailResolution, startFinishFailMetadata, hw]

theorem claim_C6_amended_witness :
    (startWithResolutionFailure initState).2 = true
    ∧ (startWithResolutionFailure initState).1.errorEmits = initState.errorEmits + 1
    ∧ (startWithResolutionFailure initState).1.unwatch = false :=
  ⟨(claim_C6_amended initState "pool" rfl).1,
   (claim_C6_amended initState "pool" rfl).2.1,
   (claim_C6_amended initState "pool" rfl).2.2.1⟩

/-- C7: a failure of a single sampled tick read does not abort the refresh:
replacing the failed entry by an initialized tick with liquidityNet 0 leaves
both the fetched tick map (up to the default value 0 read by the walk) and
the produced order-book snapshot unchanged. -/
theorem claim_C7_failure_degrades (d0 d1 : ℕ) (o : Option ℕ) (c L ts : ℤ)
    (rs : List TickReadResult) (j : ℕ) (hts : 0 < ts)
    (hlen : rs.length = 2 * resolvedTicksPerSide o + 1)
    (hj : j < rs.length)
    (hfail : rs[j] = TickReadResult.failure) :
    (∀ t, (buildFetchedTicks ((uniqueSortedTickIndices c ts (resolvedTicksPerSide o)).zip
            (rs.set j (TickReadResult.success 0 0 true))) t).getD 0
        = (buildFetchedTicks ((uniqueSortedTickIndices c ts (resolvedTicksPerSide o)).zip rs) t).getD 0)
    ∧ fetchAndCalculateOrderBook d0 d1 o c L ts (rs.set j (TickReadResult.success 0 0 true))
        = fetchAndCalculateOrderBook d0 d1 o c L ts rs := by
  have hlenI : (uniqueSortedTickIndices c ts (resolvedTicksPerSide o)).length
      = 2 * resolvedTicksPerSide o + 1 :=
    uniqueSortedTickIndices_length c ts (resolvedTicksPerSide o) hts
  have hjI : j < (uniqueSortedTickIndices c ts (resolvedTicksPerSide o)).length := by omega
  constructor
  · intro t
    rw [zip_set_right _ _ _ _ hjI (by omega)]
    unfold buildFetchedTicks
    have hzlen : ((uniqueSortedTickIndices c ts (resolvedTicksPerSide o)).zip rs).length
        = 2 * resolvedTicksPerSide o + 1 := by
      rw [List.length_zip]
      omega
    have hjz : j < ((uniqueSortedTickIndices c ts (resolvedTicksPerSide o)).zip rs).length := by
      omega
    have hget : ((uniqueSortedTickIndices c ts (resolvedTicksPerSide o)).zip rs)[j].1
        = (uniqueSortedTickIndices c ts (resolvedTicksPerSide o))[j] := by
      rw [List.getElem_zip]
    rw [← hget]
    refine buildFold_set_degrades _ j (fun _ => none) hjz ?_ (by simp) ?_ t
    · rw [List.map_fst_zip _ _ (by omega)]
      exact uniqueSortedTickIndices_nodup c ts (resolvedTicksPerSide o) hts
    · rw [List.getElem_zip]
      exact hfail
  · simp only [fetchAndCalculateOrderBook]
    rw [fetchAndCalculateOrderBookCore_eq _ _ _ _ _ _ _ hts,
      fetchAndCalculateOrderBookCore_eq _ _ _ _ _ _ _ hts]

theorem claim_C7_witness :
    fetchAndCalculateOrderBook 18 18 (some 1) 0 1000 60
        ([TickReadResult.success 0 5 true, TickReadResult.failure,
          TickReadResult.success 0 7 true].set 1 (TickReadResult.success 0 0 true))
      = fetchAndCalculateOrderBook 18 18 (some 1) 0 1000 60
          [TickReadResult.success 0 5 true, TickReadResult.failure,
           TickReadResult.success 0 7 true] :=
  (claim_C7_failure_degrades 18 18 (some 1) 0 1000 60
      [TickReadResult.success 0 5 true, TickReadResult.failure,
       TickReadResult.success 0 7 true] 1 (by norm_num) (by decide) (by decide) (by decide)).2

/-- C8: for every center tick, every positive tick spacing and every
(optional, defaulting to 50) per-side window n, the sampler queries exactly
the ascending, duplicate-free arithmetic progression of the 2n+1 ticks
centered at the current tick and stepped by the spacing. -/
theorem claim_C8_sampled_indices (c ts : ℤ) (o : Option ℕ) (hts : 0 < ts) :
    uniqueSortedTickIndices c ts (resolvedTicksPerSide o)
        = tickProgression c ts (resolvedTicksPerSide o)
    ∧ List.Sorted (· < ·) (uniqueSortedTickIndices c ts (resolvedTicksPerSide o))
    ∧ (uniqueSortedTickIndices c ts (resolvedTicksPerSide o)).Nodup
    ∧ (uniqueSortedTickIndices c ts (resolvedTicksPerSide o)).length
        = 2 * resolvedTicksPerSide o + 1
    ∧ resolvedTicksPerSide none = 50 := by
  refine ⟨uniqueSortedTickIndices_eq c ts _ hts, ?_,
    uniqueSortedTickIndices_nodup c ts _ hts,
    uniqueSortedTickIndices_length c ts _ hts, rfl⟩
  rw [uniqueSortedTickIndices_eq c ts _ hts]
  exact tickProgression_sorted_lt c ts _ hts

theorem claim_C8_witness :
    uniqueSortedTickIndices 0 60 (resolvedTicksPerSide (some 2))
      = tickProgression 0 60 (resolvedTicksPerSide (some 2)) :=
  (claim_C8_sampled_indices 0 60 (some 2) (by norm_num)).1

/-- C9: each processed swap event yields the market price
(sqrtPriceX96 / 2^96)^2 * 10^(decimals0 - decimals1), stores it, and emits a
notification carrying that price, the raw event, the pool address, chainId,
marketId and the processing timestamp; an event with sqrtPriceX96 = 2^96 and
equal decimals yields market price exactly 1. -/
theorem claim_C9_swap_price (cfg : ListenerConfig) (s : MState)
    (args : SwapEventArgs) (d0 d1 now : ℕ) :
    (processSwap cfg s args d0 d1 now).2.marketPrice
        = some (marketPriceOf args.sqrtPriceX96 d0 d1)
    ∧ marketPriceOf args.sqrtPriceX96 d0 d1
        = ((args.sqrtPriceX96 : ℚ) / 2 ^ 96) ^ 2 * (10 : ℚ) ^ ((d0 : ℤ) - (d1 : ℤ))
    ∧ (processSwap cfg s args d0 d1 now).1.marketPrice
        = some (marketPriceOf args.sqrtPriceX96 d0 d1)
    ∧ (processSwap cfg s args d0 d1 now).2.rawSwapArgs = args
    ∧ (processSwap cfg s args d0 d1 now).2.poolAddress = s.poolAddress
    ∧ (processSwap cfg s args d0 d1 now).2.chainId = cfg.chainId
    ∧ (processSwap cfg s args d0 d1 now).2.marketId = cfg.marketId
    ∧ (processSwap cfg s args d0 d1 now).2.timestamp = now
    ∧ ∀ d : ℕ, marketPriceOf (2 ^ 96) d d = 1 := by
  refine ⟨rfl, rfl, rfl, rfl, rfl, rfl, rfl, rfl, ?_⟩
  intro d
  unfold marketPriceOf
  push_cast
  rw [sub_self, zpow_zero, mul_one]
  norm_num

/-- C10: for every tick within the protocol tick bounds, every positive
spacing and every pair of token decimals, tickToPrice is strictly decreasing
in the tick: tickToPrice T > tickToPrice (T + spacing). -/
theorem claim_C10_price_decreasing (T spacing : ℤ) (d0 d1 : ℕ)
    (_hlo : -887272 ≤ T) (_hhi : T ≤ 887272) (hs : 0 < spacing) :
    tickToPrice (T + spacing) d0 d1 < tickToPrice T d0 d1 :=
  tickToPrice_lt_of_lt d0 d1 (by omega)

theorem claim_C10_witness :
    tickToPrice (0 + 60) 18 18 < tickToPrice 0 18 18 :=
  claim_C10_price_decreasing 0 60 18 18 (by norm_num) (by norm_num) (by norm_num)

end SapienceHelpers
